import Mathlib

/-!
Shallow embedding of the LyAssistant core engine
(`src/core_analysis.py`, `src/sanity_layer.py`, `src/performance_tracker.py`,
`src/strategy_evolution.py`, `src/manual_api.py`) and proofs about it.

Modelling conventions, used throughout:
* Python `dict`s keyed by strings are modelled as association lists
  `List (String × α)` (first binding wins on lookup, as Python dicts have
  unique keys; insertion order is preserved, as in Python 3.7+).
* Python `float` values are modelled as exact rationals `ℚ`.  Every literal
  appearing in the analysed code paths is decimal, and the properties proved
  here are relational (they compare one computed field with another computed
  from the same intermediate value), so the binary-float/rational gap does not
  affect any statement below.
* Python `int(x)` on a number truncates toward zero: `pyTrunc`.
* Python `round(x)` rounds half to even: `pyRound`; `round(x, n)` is
  `pyRoundDigits`.
* Python `sorted` / `list.sort` is a stable sort; `List.insertionSort` is
  stable with the same keep-original-order-on-ties convention, and any two
  stable sorts agree, so it is the exact model.
* Python compares strings lexicographically by code point: `pyStrLe`.
* Lookups that would raise `KeyError` in Python are modelled with a default
  (`alookupD … 0`); every theorem whose truth could depend on such a lookup
  carries a hypothesis that the key is present.
-/

namespace LyAssistant

/-- Python `int(q)` on a rational: truncation toward zero. -/
def pyTrunc (q : ℚ) : ℤ :=
  if q < 0 then -⌊-q⌋ else ⌊q⌋

/-- Python `round(q)`: round half to even (banker's rounding). -/
def pyRound (q : ℚ) : ℤ :=
  let f := ⌊q⌋
  let frac := q - (f : ℚ)
  if frac < 1/2 then f
  else if (1:ℚ)/2 < frac then f + 1
  else if 2 ∣ f then f else f + 1

/-- Python `a <= b` on strings, lexicographic by code point
(`pyStrLeAux` on the character lists). -/
def pyStrLeAux : List Char → List Char → Bool
  | [], _ => true
  | _ :: _, [] => false
  | a :: as, b :: bs =>
    if a.toNat < b.toNat then true
    else if a.toNat = b.toNat then pyStrLeAux as bs else false

/-- Python `a <= b` on strings. -/
def pyStrLe (a b : String) : Bool := pyStrLeAux a.data b.data

/-- Python `round(q, d)`: round half to even at `d` decimal digits. -/
def pyRoundDigits (q : ℚ) (d : ℕ) : ℚ :=
  (pyRound (q * (10 ^ d : ℕ)) : ℚ) / (10 ^ d : ℕ)

/-- Lookup in an association list (Python `d[k]` / `k in d`):
the value at the first binding of `k`, if any. -/
def alookup {α : Type} (d : List (String × α)) (k : String) : Option α :=
  (d.find? (fun p => p.1 = k)).map (fun p => p.2)

/-- Lookup with a default; models `d[k]` at call sites where the analysed code
guarantees the key is present (a missing key would raise `KeyError` in
Python — theorems depending on the value carry a presence hypothesis). -/
def alookupD {α : Type} (d : List (String × α)) (k : String) (v₀ : α) : α :=
  (alookup d k).getD v₀

/-- Python `d[k] = v` on a dict: replace in place if the key exists
(keeping its position), append otherwise. -/
def aset {α : Type} (d : List (String × α)) (k : String) (v : α) : List (String × α) :=
  if (d.find? (fun p => p.1 = k)).isSome then
    d.map (fun p => if p.1 = k then (k, v) else p)
  else
    d ++ [(k, v)]

/-! ## `src/strategy_evolution.py` — data model -/

/-- Model of `WeightChange` dataclass (`strategy_evolution.py`). -/
structure WeightChange where
  strategy_id : String
  weight_key : String
  old_weight : ℤ
  new_weight : ℤ
  reason : String
  deriving Repr, DecidableEq

/-- The `weight_adjustment` section of the evolution config.  The weights and
all adjustment parameters are integers in the config (`Dict[str, int]`
weights, integer step/bounds). -/
structure WeightAdjustmentCfg where
  step_pct : ℤ
  max_total_adjustment_pct : ℤ
  min_weight : ℤ
  max_weight : ℤ
  deriving Repr, DecidableEq

/-- Model of `_round_preserve_total(values, total)` (`strategy_evolution.py` lines
27–42), over exact rationals.  `floors` truncates each value toward zero
(`int(v)`), `remainder` is `total - sum(floors)`, fractional parts are sorted
by `(-fraction, key)` ascending, and — only when the remainder is positive —
one point is handed out per step, cycling through that order.  A negative
remainder is left uncorrected (`range(max(0, remainder))` is empty). -/
def roundPreserveTotal (values : List (String × ℚ)) (total : ℤ) : List (String × ℤ) :=
  let floors : List (String × ℤ) := values.map (fun p => (p.1, pyTrunc p.2))
  let remainder : ℤ := total - (floors.map (fun p => p.2)).sum
  let fractions : List (String × ℚ) :=
    List.insertionSort
      (fun a b => b.2 < a.2 ∨ (a.2 = b.2 ∧ pyStrLe a.1 b.1 = true))
      (values.map (fun p => (p.1, p.2 - (pyTrunc p.2 : ℚ))))
  if fractions.isEmpty then floors
  else
    (List.range (max 0 remainder).toNat).foldl
      (fun result index =>
        let k := (fractions.get! (index % fractions.length)).1
        aset result k (alookupD result k 0 + 1))
      floors

/-- State threaded through the adjustment loop of `evolve_weights`:
the `candidate` weight dict, the accumulated `changes`, and `total_shift`.
`candidate` starts as `{k: float(v)}` of the integer `current_weights` and is
only ever assigned `float(new_weight)` with `new_weight : int`, so its values
are integral floats throughout; they are modelled as `ℤ`. -/
structure EvolveState where
  candidate : List (String × ℤ)
  changes : List WeightChange
  total_shift : ℤ
  deriving Repr, DecidableEq

/-- The `degraded` flag of one row of the performance summary — the only field
of `performance_summary[sid]` that `evolve_weights` reads
(`row["degraded"]`). `some true` models membership in the `degraded` set,
`some false` membership in `outperforming`, `none` absence from the summary. -/
def summaryDegraded (summary : List (String × Bool)) (sid : String) : Option Bool :=
  alookup summary sid

/-- One iteration of the `for strategy_id in sorted(mapping)` body of
`evolve_weights` (`strategy_evolution.py` lines 97–124), for the pair
`(strategy_id, weight_key)`.  The early `break` on `total_shift >= max_shift`
lives in `evolveLoop`. -/
def evolveStep (acfg : WeightAdjustmentCfg) (summary : List (String × Bool))
    (st : EvolveState) (pair : String × String) : EvolveState :=
  let strategy_id := pair.1
  let weight_key := pair.2
  let old_weight : ℤ := alookupD st.candidate weight_key 0
  let step := acfg.step_pct
  let nwr : ℤ × String :=
    match summaryDegraded summary strategy_id with
    | some true => (max acfg.min_weight (old_weight - step), "degraded performance detected")
    | some false => (min acfg.max_weight (old_weight + step), "relative outperformance detected")
    | none => (old_weight, "insufficient data")
  let new_weight := nwr.1
  if new_weight ≠ old_weight then
    { candidate := aset st.candidate weight_key new_weight
      changes := st.changes ++ [{ strategy_id := strategy_id, weight_key := weight_key,
                                  old_weight := old_weight, new_weight := new_weight,
                                  reason := nwr.2 }]
      total_shift := st.total_shift + |new_weight - old_weight| }
  else
    st

/-- The adjustment loop of `evolve_weights`: iterate the (sorted) mapping
pairs, breaking as soon as `total_shift >= max_total_adjustment_pct`. -/
def evolveLoop (acfg : WeightAdjustmentCfg) (summary : List (String × Bool)) :
    EvolveState → List (String × String) → EvolveState
  | st, [] => st
  | st, pair :: rest =>
    if acfg.max_total_adjustment_pct ≤ st.total_shift then st
    else evolveLoop acfg summary (evolveStep acfg summary st pair) rest

/-- Model of `evolve_weights(current_weights, performance_summary, evolution_config)`
(`strategy_evolution.py` lines 77–127).  `mapping` is the config's
`strategy_to_weight_key` dict; `sorted(mapping)` iterates its keys in
ascending order, modelled by sorting the (unique-keyed) pairs by key.
The summary is reduced to the per-strategy `degraded` flag, the only field
read.  The final candidate (integral floats, see `EvolveState`) is passed to
`_round_preserve_total` with `total=100`. -/
def evolve_weights (current_weights : List (String × ℤ))
    (summary : List (String × Bool))
    (mapping : List (String × String)) (acfg : WeightAdjustmentCfg) :
    List (String × ℤ) × List WeightChange :=
  let sortedMapping := List.insertionSort (fun a b => pyStrLe a.1 b.1 = true) mapping
  let st := evolveLoop acfg summary
    { candidate := current_weights, changes := [], total_shift := 0 } sortedMapping
  let normalized := roundPreserveTotal (st.candidate.map (fun p => (p.1, (p.2 : ℚ)))) 100
  (normalized, st.changes)

/-- Sum of the values of a weight dict (`sum(weights.values())`). -/
def weightTotal (w : List (String × ℤ)) : ℤ :=
  (w.map (fun p => p.2)).sum

/-- Cumulative absolute shift of a list of applied weight changes. -/
def cumulativeShift (changes : List WeightChange) : ℤ :=
  (changes.map (fun c => |c.new_weight - c.old_weight|)).sum

/-! ## `src/performance_tracker.py` -/

/-- Model of `OutcomeRecord` dataclass (`performance_tracker.py`): one realized
recommendation outcome, with per-horizon realized returns. -/
structure OutcomeRecord where
  strategy_id : String
  timestamp : String
  returns_pct : List (String × ℚ)
  deriving Repr, DecidableEq

/-- The `degradation` section of the evolution config, together with
`tracking_horizons` (the other config fields `summarize_strategy_performance`
reads). -/
structure DegradationCfg where
  window_size : ℕ
  min_trades_required : ℕ
  win_rate_threshold : ℚ
  benchmark_return_by_horizon : List (String × ℚ)
  deriving Repr, DecidableEq

/-- One `horizon_metrics[horizon]` row of the summary. -/
structure HorizonMetrics where
  trade_count : ℕ
  win_rate : ℚ
  avg_return_pct : ℚ
  benchmark_return_pct : ℚ
  deriving Repr, DecidableEq

/-- One `summary[strategy_id]` row of `summarize_strategy_performance`.
The `degraded_reasons` strings keep the horizon and the fixed description of
the trigger; the interpolated percentage text of the Python f-strings is not
reproduced (no claim reads it — only emptiness/count matter). -/
structure StrategySummary where
  strategy_id : String
  metrics : List (String × HorizonMetrics)
  degraded : Bool
  degraded_reasons : List String
  deriving Repr, DecidableEq

/-- The per-horizon body of the `for horizon in horizons` loop
(`performance_tracker.py` lines 61–91): the metrics row for this horizon and
the degradation reasons it contributes.  Fewer than `min_trades_required`
observations ⇒ zero metrics and no reasons (`continue`). -/
def summarizeHorizon (dcfg : DegradationCfg) (windowed : List OutcomeRecord)
    (horizon : String) : HorizonMetrics × List String :=
  let values : List ℚ := windowed.filterMap (fun item => alookup item.returns_pct horizon)
  let benchmark := alookupD dcfg.benchmark_return_by_horizon horizon 0
  if values.length < dcfg.min_trades_required then
    ({ trade_count := values.length, win_rate := 0, avg_return_pct := 0,
       benchmark_return_pct := benchmark }, [])
  else
    let wins := (values.filter (fun value => 0 < value)).length
    let win_rate : ℚ := (wins : ℚ) / (values.length : ℚ)
    let avg_return : ℚ := values.sum / (values.length : ℚ)
    ({ trade_count := values.length, win_rate := pyRoundDigits win_rate 4,
       avg_return_pct := pyRoundDigits avg_return 4, benchmark_return_pct := benchmark },
     (if win_rate < dcfg.win_rate_threshold then
        [horizon ++ " win_rate below threshold"] else []) ++
     (if avg_return < benchmark then
        [horizon ++ " avg_return below benchmark"] else []))

/-- The per-strategy body of `summarize_strategy_performance`
(`performance_tracker.py` lines 54–98): sort the strategy's records by
timestamp (stable), keep the trailing `window_size` (`ordered[-w:]`, which is
the whole list when `w = 0`), and fold the horizons in order. -/
def summarizeStrategy (dcfg : DegradationCfg) (horizons : List String)
    (group : List OutcomeRecord) (strategy_id : String) : StrategySummary :=
  let ordered := List.insertionSort
    (fun a b => pyStrLe a.timestamp b.timestamp = true) group
  let windowed := if dcfg.window_size = 0 then ordered
    else ordered.drop (ordered.length - dcfg.window_size)
  let rows := horizons.map (fun h => (h, summarizeHorizon dcfg windowed h))
  let reasons := (rows.map (fun p => p.2.2)).flatten
  { strategy_id := strategy_id,
    metrics := rows.map (fun p => (p.1, p.2.1)),
    degraded := decide (0 < reasons.length),
    degraded_reasons := reasons }

/-- Model of `summarize_strategy_performance(outcomes, config)`
(`performance_tracker.py` lines 40–100).  Records are grouped by strategy id
(`defaultdict` grouping preserves record order inside a group — `filter`
does too) and the groups are visited in ascending id order
(`for strategy_id in sorted(grouped)`). -/
def summarize_strategy_performance (outcomes : List OutcomeRecord)
    (dcfg : DegradationCfg) (horizons : List String) :
    List (String × StrategySummary) :=
  let ids := List.insertionSort (fun a b => pyStrLe a b = true)
    ((outcomes.map (fun r => r.strategy_id)).dedup)
  ids.map (fun sid =>
    (sid, summarizeStrategy dcfg horizons
      (outcomes.filter (fun r => r.strategy_id = sid)) sid))

/-- Projection of the full performance summary to the per-strategy `degraded`
flag, the only field `evolve_weights` reads from each row. -/
def summaryFlags (summary : List (String × StrategySummary)) : List (String × Bool) :=
  summary.map (fun p => (p.1, p.2.degraded))

/-! ## `src/core_analysis.py` -/

/-- Model of `Mode = Literal["PRE_EARNINGS", "POST_EARNINGS"]`. -/
inductive Mode
  | PRE_EARNINGS
  | POST_EARNINGS
  deriving Repr, DecidableEq

/-- Model of `ComponentScores` dataclass: normalized component scores. -/
structure ComponentScores where
  trend_momentum : ℚ
  fundamentals : ℚ
  news_sentiment : ℚ
  earnings_context_pre : ℚ
  earnings_context_post : ℚ
  risk_volatility : ℚ
  deriving Repr, DecidableEq

/-- Model of `AnalysisInput` dataclass. -/
structure AnalysisInput where
  ticker : String
  mode : Mode
  current_price : ℚ
  scores : ComponentScores
  deriving Repr, DecidableEq

/-- Model of `config["weights"]`: the five integer percentages used by
`calculate_score_breakdown` (and summed by `_validate_config`). -/
structure Weights where
  trend_momentum : ℤ
  fundamentals : ℤ
  news_sentiment : ℤ
  earnings_context : ℤ
  risk_volatility : ℤ
  deriving Repr, DecidableEq

/-- Model of `config["score_bounds"]`. -/
structure ScoreBounds where
  min : ℚ
  max : ℚ
  deriving Repr, DecidableEq

/-- Model of `config["rating_thresholds"]`. -/
structure RatingThresholds where
  buy_min : ℤ
  hold_min : ℤ
  deriving Repr, DecidableEq

/-- Model of `config["target_price"]`. -/
structure TargetPriceCfg where
  neutral_score : ℤ
  return_per_score_point : ℚ
  min_return_pct : ℚ
  max_return_pct : ℚ
  deriving Repr, DecidableEq

/-- Model of `config["risk_level_thresholds"]`. -/
structure RiskLevelThresholds where
  low_risk_min : ℚ
  medium_risk_min : ℚ
  deriving Repr, DecidableEq

/-- Model of `config["reason_generation"]`. -/
structure ReasonGenerationCfg where
  top_positive_reasons : ℕ
  top_negative_factors : ℕ
  deriving Repr, DecidableEq

/-- Model of `config["safety_guards"]["manual_overrides"]`; `.get(…, False)` makes a
missing key equal to `false`. -/
structure ManualOverrides where
  disable_score_change_cap : Bool
  deriving Repr, DecidableEq

/-- Model of `config["safety_guards"]`; `guard_cfg.get("max_daily_score_change")`
yields `None` when the key is absent, modelled by `Option`. -/
structure SafetyGuards where
  manual_overrides : ManualOverrides
  max_daily_score_change : Option ℤ
  deriving Repr, DecidableEq

/-- The analysis config (`config/analysis_config.json` after JSON load). -/
structure AnalysisConfig where
  weights : Weights
  score_bounds : ScoreBounds
  rating_thresholds : RatingThresholds
  target_price : TargetPriceCfg
  risk_level_thresholds : RiskLevelThresholds
  reason_generation : ReasonGenerationCfg
  safety_guards : SafetyGuards
  deriving Repr, DecidableEq

/-- Model of `sum(weights.values())`. -/
def weightsTotal (w : Weights) : ℤ :=
  w.trend_momentum + w.fundamentals + w.news_sentiment + w.earnings_context + w.risk_volatility

/-- Model of `_validate_config` (`core_analysis.py` lines 43–47): the one and only
check run by `load_analysis_config` after parsing the JSON — `raise
ValueError` iff the weights do not sum to exactly 100.  (`Except.error`
models the raised `ValueError`.) -/
def _validate_config (config : AnalysisConfig) : Except String Unit :=
  if weightsTotal config.weights ≠ 100 then
    Except.error "Weights must sum to 100"
  else
    Except.ok ()

/-- Model of `_clamp(value, minimum, maximum)`. -/
def _clamp (value minimum maximum : ℚ) : ℚ :=
  max minimum (min maximum value)

/-- Model of `_selected_earnings_score(mode, scores)`. -/
def _selected_earnings_score (mode : Mode) (scores : ComponentScores) : ℚ :=
  match mode with
  | Mode.PRE_EARNINGS => scores.earnings_context_pre
  | Mode.POST_EARNINGS => scores.earnings_context_post

/-- Model of `weights[key]` for the five component keys that occur in
`calculate_score_breakdown` (any other key would raise `KeyError`; none
occurs). -/
def weightOf (w : Weights) (key : String) : ℤ :=
  if key = "trend_momentum" then w.trend_momentum
  else if key = "fundamentals" then w.fundamentals
  else if key = "news_sentiment" then w.news_sentiment
  else if key = "earnings_context" then w.earnings_context
  else w.risk_volatility

/-- Model of `calculate_score_breakdown` (`core_analysis.py` lines 60–82): the five
raw components in dict insertion order, clamped to the score bounds and
weighted (`clamped * weights[key] / 100`). -/
def calculate_score_breakdown (analysis_input : AnalysisInput) (config : AnalysisConfig) :
    List (String × ℚ) :=
  let bounds := config.score_bounds
  let earnings_score := _selected_earnings_score analysis_input.mode analysis_input.scores
  let raw_components : List (String × ℚ) :=
    [("trend_momentum", analysis_input.scores.trend_momentum),
     ("fundamentals", analysis_input.scores.fundamentals),
     ("news_sentiment", analysis_input.scores.news_sentiment),
     ("earnings_context", earnings_score),
     ("risk_volatility", analysis_input.scores.risk_volatility)]
  raw_components.map (fun p =>
    (p.1, _clamp p.2 bounds.min bounds.max * (weightOf config.weights p.1 : ℚ) / 100))

/-- Model of `calculate_composite_score` (`core_analysis.py` lines 85–88):
`int(_clamp(round(sum(breakdown)), bounds))`. -/
def calculate_composite_score (score_breakdown : List (String × ℚ))
    (config : AnalysisConfig) : ℤ :=
  let score := pyRound ((score_breakdown.map (fun p => p.2)).sum)
  pyTrunc (_clamp (score : ℚ) config.score_bounds.min config.score_bounds.max)

/-- Model of `apply_daily_score_change_cap` (`core_analysis.py` lines 91–112).  All
quantities are integers (`int(previous ± max_change)` is the identity), so
the final `int(_clamp(score, lower, upper))` is integer clamping. -/
def apply_daily_score_change_cap (score : ℤ) (previous_score : Option ℤ)
    (config : AnalysisConfig) : ℤ :=
  match previous_score with
  | none => score
  | some previous =>
    if config.safety_guards.manual_overrides.disable_score_change_cap then score
    else
      match config.safety_guards.max_daily_score_change with
      | none => score
      | some max_change =>
        let lower := previous - max_change
        let upper := previous + max_change
        max lower (min upper score)

/-- Model of `map_score_to_rating` (`core_analysis.py` lines 115–121). -/
def map_score_to_rating (score : ℤ) (config : AnalysisConfig) : String :=
  if config.rating_thresholds.buy_min ≤ score then "BUY"
  else if config.rating_thresholds.hold_min ≤ score then "HOLD"
  else "SELL"

/-- Model of `estimate_target_price` (`core_analysis.py` lines 124–136): returns
`(round(target_price, 2), round(expected_return_pct, 1))`. -/
def estimate_target_price (current_price : ℚ) (score : ℤ) (config : AnalysisConfig) :
    ℚ × ℚ :=
  let target_cfg := config.target_price
  let delta_points : ℤ := score - target_cfg.neutral_score
  let expected_return_pct :=
    _clamp ((delta_points : ℚ) * target_cfg.return_per_score_point)
      target_cfg.min_return_pct target_cfg.max_return_pct
  let target_price := current_price * (1 + expected_return_pct / 100)
  (pyRoundDigits target_price 2, pyRoundDigits expected_return_pct 1)

/-- Model of `classify_risk_level` (`core_analysis.py` lines 139–145). -/
def classify_risk_level (risk_volatility_score : ℚ) (config : AnalysisConfig) : String :=
  if config.risk_level_thresholds.low_risk_min ≤ risk_volatility_score then "Low"
  else if config.risk_level_thresholds.medium_risk_min ≤ risk_volatility_score then "Medium"
  else "High"

/-- Model of `build_explanations` (`core_analysis.py` lines 152–169): stable sort of
the breakdown by contribution (descending for `key_reasons`, ascending for
`invalidating_factors`), keeping the configured top counts.  The message
text interpolation (`"<Label> contributed +X.XX points"`) is not reproduced;
each selected entry is kept as its `(component, contribution)` pair — no
claim reads the rendered text. -/
def build_explanations (score_breakdown : List (String × ℚ)) (config : AnalysisConfig) :
    List (String × ℚ) × List (String × ℚ) :=
  let reason_cfg := config.reason_generation
  let ordered := List.insertionSort (fun a b => b.2 ≤ a.2) score_breakdown
  let top_positive := ordered.take reason_cfg.top_positive_reasons
  let top_negative := (List.insertionSort (fun a b => a.2 ≤ b.2) score_breakdown).take
    reason_cfg.top_negative_factors
  (top_positive, top_negative)

/-- The result dict of `analyze_stock`.  `previous_score` and
`score_before_daily_cap` are `Option`s: `some` exactly when the key is added
to the dict (lines 198–200). -/
structure AnalysisResult where
  ticker : String
  mode : Mode
  score : ℤ
  rating : String
  current_price : ℚ
  target_price : ℚ
  expected_return_pct : ℚ
  risk_level : String
  key_reasons : List (String × ℚ)
  invalidating_factors : List (String × ℚ)
  previous_score : Option ℤ
  score_before_daily_cap : Option ℤ
  deriving Repr, DecidableEq

/-- Model of `analyze_stock` (`core_analysis.py` lines 172–201), with Python's
default argument `previous_score=None`. -/
def analyze_stock (analysis_input : AnalysisInput) (config : AnalysisConfig)
    (previous_score : Option ℤ := none) : AnalysisResult :=
  let score_breakdown := calculate_score_breakdown analysis_input config
  let uncapped_score := calculate_composite_score score_breakdown config
  let score := apply_daily_score_change_cap uncapped_score previous_score config
  let rating := map_score_to_rating score config
  let tp := estimate_target_price analysis_input.current_price score config
  let explanations := build_explanations score_breakdown config
  { ticker := analysis_input.ticker
    mode := analysis_input.mode
    score := score
    rating := rating
    current_price := pyRoundDigits analysis_input.current_price 2
    target_price := tp.1
    expected_return_pct := tp.2
    risk_level := classify_risk_level analysis_input.scores.risk_volatility config
    key_reasons := explanations.1
    invalidating_factors := explanations.2
    previous_score := previous_score
    score_before_daily_cap :=
      match previous_score with
      | none => none
      | some _ => some uncapped_score }

/-! ## `src/manual_api.py` -/

/-- Python `str.strip()` whitespace predicate (ASCII whitespace, which is
all that occurs in the analysed payloads). -/
def pyIsSpace (c : Char) : Bool :=
  c == ' ' || c == '\t' || c == '\n' || c == '\r' || c.toNat == 11 || c.toNat == 12

/-- Python `s.strip()`. -/
def pyStrip (s : String) : String :=
  ⟨((s.data.dropWhile pyIsSpace).reverse.dropWhile pyIsSpace).reverse⟩

/-- ASCII `Char` upper-casing (Python `str.upper()` on the ASCII strings
that occur here). -/
def pyCharUpper (c : Char) : Char :=
  if 'a' ≤ c ∧ c ≤ 'z' then Char.ofNat (c.toNat - 32) else c

/-- Python `s.upper()`. -/
def pyUpper (s : String) : String :=
  ⟨s.data.map pyCharUpper⟩

/-- Model of `StrategyParameters` dataclass (validated values). -/
structure StrategyParameters where
  risk_tolerance : String
  time_horizon : String
  expected_profit_target : String
  deriving Repr, DecidableEq

/-- The `strategy_parameters` sub-object of a request payload; each field
may be missing. -/
structure StrategyPayload where
  risk_tolerance : Option String
  time_horizon : Option String
  expected_profit_target : Option String
  deriving Repr, DecidableEq

/-- The `component_scores` sub-object of a request payload; each field may
be missing. -/
structure ScoresPayload where
  trend_momentum : Option ℚ
  fundamentals : Option ℚ
  news_sentiment : Option ℚ
  earnings_context_pre : Option ℚ
  earnings_context_post : Option ℚ
  risk_volatility : Option ℚ
  deriving Repr, DecidableEq

/-- A manual-analysis request payload.  Fields are modelled at their
expected JSON types with `Option` for absence; a value of the wrong runtime
type (which `isinstance`/`float()` checks reject with the same validation
errors) is not representable — every claim below concerns payloads that pass
validation, so no behaviour is lost. -/
structure ManualPayload where
  ticker : Option String
  mode : Option String
  strategy_parameters : Option StrategyPayload
  component_scores : Option ScoresPayload
  current_price_override : Option ℚ
  current_price : Option ℚ
  deriving Repr, DecidableEq

/-- An `_error(message, status)` response: `(status, {"error": message})`. -/
structure ApiError where
  status : ℕ
  error : String
  deriving Repr, DecidableEq

/-- Model of `_validate_mode` (`manual_api.py` lines 34–38). -/
def _validate_mode (payload : ManualPayload) : Except ApiError Mode :=
  match payload.mode with
  | some "PRE_EARNINGS" => Except.ok Mode.PRE_EARNINGS
  | some "POST_EARNINGS" => Except.ok Mode.POST_EARNINGS
  | _ => Except.error ⟨400, "mode must be PRE_EARNINGS or POST_EARNINGS"⟩

/-- Model of `_validate_strategy` (`manual_api.py` lines 41–65). -/
def _validate_strategy (payload : ManualPayload) : Except ApiError StrategyParameters :=
  match payload.strategy_parameters with
  | none => Except.error ⟨400, "strategy_parameters must be an object"⟩
  | some strategy =>
    match strategy.risk_tolerance with
    | some rt =>
      if rt = "low" ∨ rt = "medium" ∨ rt = "high" then
        match strategy.time_horizon with
        | some th =>
          if th = "short" ∨ th = "swing" ∨ th = "long" then
            match strategy.expected_profit_target with
            | some ept =>
              if (pyStrip ept).data.isEmpty then
                Except.error
                  ⟨400, "strategy_parameters.expected_profit_target must be a non-empty string"⟩
              else
                Except.ok { risk_tolerance := rt, time_horizon := th,
                            expected_profit_target := pyStrip ept }
            | none =>
              Except.error
                ⟨400, "strategy_parameters.expected_profit_target must be a non-empty string"⟩
          else
            Except.error ⟨400, "strategy_parameters.time_horizon must be short, swing, or long"⟩
        | none =>
          Except.error ⟨400, "strategy_parameters.time_horizon must be short, swing, or long"⟩
      else
        Except.error ⟨400, "strategy_parameters.risk_tolerance must be low, medium, or high"⟩
    | none =>
      Except.error ⟨400, "strategy_parameters.risk_tolerance must be low, medium, or high"⟩

/-- Model of `_validate_component_scores` (`manual_api.py` lines 68–98).  The listing
of the missing field names inside the error message is not reproduced. -/
def _validate_component_scores (payload : ManualPayload) : Except ApiError ComponentScores :=
  match payload.component_scores with
  | none => Except.error ⟨400, "component_scores must be an object"⟩
  | some scores =>
    match scores.trend_momentum, scores.fundamentals, scores.news_sentiment,
      scores.earnings_context_pre, scores.earnings_context_post, scores.risk_volatility with
    | some a, some b, some c, some d, some e, some f =>
      Except.ok { trend_momentum := a, fundamentals := b, news_sentiment := c,
                  earnings_context_pre := d, earnings_context_post := e, risk_volatility := f }
    | _, _, _, _, _, _ => Except.error ⟨400, "component_scores missing fields"⟩

/-- Model of `_resolve_current_price` (`manual_api.py` lines 101–117):
`payload.get("current_price_override", payload.get("current_price"))`,
required and strictly positive. -/
def _resolve_current_price (payload : ManualPayload) : Except ApiError ℚ :=
  match payload.current_price_override.orElse (fun _ => payload.current_price) with
  | none => Except.error ⟨400, "current_price_override or current_price is required"⟩
  | some price =>
    if price ≤ 0 then
      Except.error ⟨400, "current_price_override/current_price must be > 0"⟩
    else
      Except.ok price

/-- Model of `validate_manual_request` (`manual_api.py` lines 120–147): the checks
run in source order and the first failure is returned. -/
def validate_manual_request (payload : ManualPayload) :
    Except ApiError (AnalysisInput × StrategyParameters) :=
  match payload.ticker with
  | none => Except.error ⟨400, "ticker must be a non-empty string"⟩
  | some t =>
    if (pyStrip t).data.isEmpty then
      Except.error ⟨400, "ticker must be a non-empty string"⟩
    else
      match _validate_mode payload with
      | Except.error e => Except.error e
      | Except.ok mode =>
        match _validate_strategy payload with
        | Except.error e => Except.error e
        | Except.ok strategy =>
          match _validate_component_scores payload with
          | Except.error e => Except.error e
          | Except.ok component_scores =>
            match _resolve_current_price payload with
            | Except.error e => Except.error e
            | Except.ok current_price =>
              Except.ok
                ({ ticker := pyUpper (pyStrip t), mode := mode,
                   current_price := current_price, scores := component_scores }, strategy)

/-- The 200-response body of `handle_manual_analysis`: the analysis result
dict with the echoed `strategy_parameters` entry. -/
structure ManualResponse where
  result : AnalysisResult
  strategy_parameters : StrategyParameters
  deriving Repr, DecidableEq

/-- Model of `handle_manual_analysis` (`manual_api.py` lines 150–161): on validation
failure the error tuple is returned; otherwise `analyze_stock` is invoked
WITHOUT a previous score (the call site passes only `(analysis_input,
config)`) and the strategy metadata is echoed back with HTTP 200. -/
def handle_manual_analysis (payload : ManualPayload) (config : AnalysisConfig) :
    Except ApiError (ℕ × ManualResponse) :=
  match validate_manual_request payload with
  | Except.error e => Except.error e
  | Except.ok (analysis_input, strategy) =>
    Except.ok (200, { result := analyze_stock analysis_input config,
                      strategy_parameters := strategy })

/-! ## `src/sanity_layer.py` -/

/-- ASCII `Char` lower-casing (Python `str.lower()` on the ASCII strings
occurring here). -/
def pyCharLower (c : Char) : Char :=
  if 'A' ≤ c ∧ c ≤ 'Z' then Char.ofNat (c.toNat + 32) else c

/-- Python `s.lower()`. -/
def pyLower (s : String) : String :=
  ⟨s.data.map pyCharLower⟩

/-- An analysis-result dict as the sanity layer reads it (`row.get(…)`
everywhere).  `Option` models a possibly-missing key; for `key_reasons` /
`invalidating_factors` the code only tests truthiness (`not row.get(…)`),
under which a missing key and an empty list coincide, so both are the empty
list. -/
structure SanityRow where
  ticker : Option String
  score : Option ℤ
  rating : Option String
  current_price : Option ℚ
  target_price : Option ℚ
  expected_return_pct : Option ℚ
  risk_level : Option String
  key_reasons : List String
  invalidating_factors : List String
  deriving Repr, DecidableEq

/-- Model of `config["rules"]["rating_thresholds"]` of the sanity config. -/
structure SanityRatingThresholds where
  buy_min : ℤ
  hold_min : ℤ
  deriving Repr, DecidableEq

/-- Model of `config["rules"]`. -/
structure SanityRulesCfg where
  rating_thresholds : SanityRatingThresholds
  target_return_tolerance_pct : ℚ
  deriving Repr, DecidableEq

/-- Model of `config["health_score"]["penalties"]`. -/
structure PenaltiesCfg where
  per_violation : ℤ
  deriving Repr, DecidableEq

/-- Model of `config["health_score"]`. -/
structure HealthScoreCfg where
  penalties : PenaltiesCfg
  violation_cap : ℤ
  deriving Repr, DecidableEq

/-- Model of `config["behavior_controls"]`. -/
structure BehaviorControlsCfg where
  block_buy_below_health_score : ℤ
  deriving Repr, DecidableEq

/-- The sanity-layer config (`config/sanity_rules.json`). -/
structure SanityConfig where
  rules : SanityRulesCfg
  health_score : HealthScoreCfg
  behavior_controls : BehaviorControlsCfg
  deriving Repr, DecidableEq

/-- Model of `_check_rating_alignment` (`sanity_layer.py` lines 20–33). -/
def _check_rating_alignment (row : SanityRow) (cfg : SanityRulesCfg) : List String :=
  let thresholds := cfg.rating_thresholds
  let score := row.score.getD 0
  let rating := pyUpper (row.rating.getD "")
  let expected : String :=
    if thresholds.buy_min ≤ score then "BUY"
    else if thresholds.hold_min ≤ score then "HOLD"
    else "SELL"
  if rating ≠ expected then
    ["rating_mismatch: expected " ++ expected ++ " from score " ++ toString score ++
      ", got " ++ rating]
  else []

/-- Model of `_check_target_consistency` (`sanity_layer.py` lines 36–50).  The
`:.2f`-rendered percentages inside the mismatch message are not reproduced
(no claim reads the text). -/
def _check_target_consistency (row : SanityRow) (tolerance_pct : ℚ) : List String :=
  let current_price := row.current_price.getD 0
  let target_price := row.target_price.getD 0
  let expected_return_pct := row.expected_return_pct.getD 0
  if current_price ≤ 0 then
    ["invalid_current_price: must be > 0"]
  else
    let implied_return_pct := (target_price / current_price - 1) * 100
    if tolerance_pct < |implied_return_pct - expected_return_pct| then
      ["target_return_mismatch: implied vs expected"]
    else []

/-- The violation list collected for one row by the loop body of
`evaluate_daily_sanity` (`sanity_layer.py` lines 64–77), in source order. -/
def sanityViolations (row : SanityRow) (config : SanityConfig) : List String :=
  _check_rating_alignment row config.rules ++
  _check_target_consistency row config.rules.target_return_tolerance_pct ++
  (if pyLower (row.risk_level.getD "") = "high" ∧ pyUpper (row.rating.getD "") = "BUY" then
    ["high_risk_buy: high-risk stock should not be BUY without manual review"]
  else []) ++
  (if row.key_reasons.isEmpty then ["missing_key_reasons"] else []) ++
  (if row.invalidating_factors.isEmpty then ["missing_invalidating_factors"] else [])

/-- One `per_stock` entry of the sanity report. -/
structure PerStockEntry where
  ticker : String
  violations : List String
  penalty : ℤ
  deriving Repr, DecidableEq

/-- The report dict of `evaluate_daily_sanity`. -/
structure SanityReport where
  health_score : ℤ
  max_health_score : ℤ
  total_penalty : ℤ
  violation_count : ℕ
  per_stock : List PerStockEntry
  deriving Repr, DecidableEq

/-- Model of `evaluate_daily_sanity` (`sanity_layer.py` lines 53–91): per row,
`penalty = min(len(violations), violation_cap) * per_violation`; the loop's
running `total_penalty` is the sum of the per-stock penalties, and
`health_score = max(0, 100 - total_penalty)`. -/
def evaluate_daily_sanity (analysis_results : List SanityRow) (config : SanityConfig) :
    SanityReport :=
  let per_stock := analysis_results.map (fun row =>
    let violations := sanityViolations row config
    let penalty := min (violations.length : ℤ) config.health_score.violation_cap *
      config.health_score.penalties.per_violation
    ({ ticker := row.ticker.getD "UNKNOWN", violations := violations,
       penalty := penalty } : PerStockEntry))
  let total_penalty := (per_stock.map (fun item => item.penalty)).sum
  { health_score := max 0 (100 - total_penalty)
    max_health_score := 100
    total_penalty := total_penalty
    violation_count := (per_stock.map (fun item => item.violations.length)).sum
    per_stock := per_stock }

/-- One enriched row produced by `apply_health_controls`: the copied
original keys (`row`, with `rating` possibly rewritten) plus the metadata
keys the loop adds.  `sanity_adjustment_reason` is `some` exactly when the
key was added. -/
structure AdjustedRow where
  row : SanityRow
  health_score : ℤ
  sanity_guard_active : Bool
  base_rating : Option String
  sanity_adjustment_reason : Option String
  deriving Repr, DecidableEq

/-- Model of `controls["policy"]`. -/
structure HealthPolicy where
  block_buy_below_health_score : ℤ
  deriving Repr, DecidableEq

/-- The `controls` dict of `apply_health_controls`. -/
structure HealthControls where
  health_guard_active : Bool
  buy_recommendations_downgraded : ℕ
  policy : HealthPolicy
  deriving Repr, DecidableEq

/-- One iteration of the loop of `apply_health_controls` (`sanity_layer.py`
lines 107–118), as an explicit two-cell store `(row, enriched)`:
`enriched = dict(row)` creates a fresh copy, every following assignment
statement targets `enriched`, and no statement assigns into `row` — the
first component returns the caller-visible value of `row` after the
iteration. -/
def healthControlsLoopBody (guard_active : Bool) (health_score : ℤ) (row : SanityRow) :
    SanityRow × AdjustedRow :=
  let enriched0 : AdjustedRow :=
    { row := row, health_score := health_score, sanity_guard_active := guard_active,
      base_rating := row.rating, sanity_adjustment_reason := none }
  let enriched :=
    if guard_active ∧ row.rating = some "BUY" then
      let rowUpd := { row with rating := some "HOLD" }
      { enriched0 with row := rowUpd,
                       sanity_adjustment_reason := some "health_guard_blocked_buy" }
    else enriched0
  (row, enriched)

/-- Model of `apply_health_controls` (`sanity_layer.py` lines 94–127).  The loop's
`adjusted_count` increments exactly on the iterations that rewrite a BUY,
i.e. it counts the input rows with `guard_active` and rating `BUY`. -/
def apply_health_controls (analysis_results : List SanityRow) (sanity_report : SanityReport)
    (config : SanityConfig) : List AdjustedRow × HealthControls :=
  let health_score := sanity_report.health_score
  let guard_active := health_score < config.behavior_controls.block_buy_below_health_score
  let adjusted := (analysis_results.map (healthControlsLoopBody guard_active health_score)).map
    (fun p => p.2)
  let adjusted_count := analysis_results.countP
    (fun row => guard_active && (row.rating == some "BUY"))
  (adjusted,
   { health_guard_active := guard_active
     buy_recommendations_downgraded := adjusted_count
     policy := { block_buy_below_health_score :=
       config.behavior_controls.block_buy_below_health_score } })

/-- The caller-visible values of the input records after
`apply_health_controls` returns: the first components of the per-iteration
stores. -/
def apply_health_controls_post_rows (analysis_results : List SanityRow)
    (sanity_report : SanityReport) (config : SanityConfig) : List SanityRow :=
  let health_score := sanity_report.health_score
  let guard_active := health_score < config.behavior_controls.block_buy_below_health_score
  (analysis_results.map (healthControlsLoopBody guard_active health_score)).map
    (fun p => p.1)

/-- Model of `HealthHistoryEntry`: one snapshot row of the health-history series
(`sanity_layer.py` lines 149–161). -/
structure HistoryEntry where
  date : String
  health_score : ℤ
  violation_count : ℕ
  stock_count : ℕ
  violations_by_ticker : List (String × List String)
  deriving Repr, DecidableEq

/-- Split a character list on `-` (for ISO-date parsing). -/
def splitDashAux : List Char → List Char → List (List Char)
  | [], acc => [acc.reverse]
  | c :: rest, acc =>
    if c = '-' then acc.reverse :: splitDashAux rest []
    else splitDashAux rest (c :: acc)

/-- Digits-only parse of a character group. -/
def digitsToNat : List Char → Option ℕ
  | cs =>
    if cs.isEmpty then none
    else if cs.all (fun c => c.isDigit) then
      some (cs.foldl (fun n c => 10 * n + (c.toNat - 48)) 0)
    else none

/-- Model of `_parse_date` / `date.fromisoformat`: the strict `YYYY-MM-DD` form with
in-range month and day (day range approximated as 1–31; only the ordering of
valid dates matters to any claim).  `none` models the `ValueError` raised on
a malformed date. -/
def parseDate (s : String) : Option (ℕ × ℕ × ℕ) :=
  match splitDashAux s.data [] with
  | [y, m, d] =>
    if y.length = 4 ∧ m.length = 2 ∧ d.length = 2 then
      match digitsToNat y, digitsToNat m, digitsToNat d with
      | some yv, some mv, some dv =>
        if 1 ≤ mv ∧ mv ≤ 12 ∧ 1 ≤ dv ∧ dv ≤ 31 then some (yv, mv, dv) else none
      | _, _, _ => none
    else none
  | _ => none

/-- The sort key of a history row: the parsed date packed so that numeric
order coincides with date order (months ≤ 12 and days ≤ 31 fit in two
digits). -/
def dateKey (s : String) : ℕ :=
  match parseDate s with
  | some (y, m, d) => y * 10000 + m * 100 + d
  | none => 0

/-- The snapshot entry `update_health_history` builds for a day
(`sanity_layer.py` lines 149–161); `analysis_results` enters only through
`len(analysis_results)`, passed here as `stock_count`. -/
def mkHistoryEntry (report_date : String) (stock_count : ℕ)
    (sanity_report : SanityReport) : HistoryEntry :=
  { date := report_date
    health_score := sanity_report.health_score
    violation_count := sanity_report.violation_count
    stock_count := stock_count
    violations_by_ticker :=
      sanity_report.per_stock.map (fun item => (item.ticker, item.violations)) }

/-- The pure core of `update_health_history` (`sanity_layer.py` lines
134–169), file I/O stripped: drop every row with the same date string, append
the new entry, and stable-sort by parsed date. -/
def update_health_history (history : List HistoryEntry) (report_date : String)
    (stock_count : ℕ) (sanity_report : SanityReport) : List HistoryEntry :=
  let entry := mkHistoryEntry report_date stock_count sanity_report
  List.insertionSort (fun a b => dateKey a.date ≤ dateKey b.date)
    ((history.filter (fun row => row.date ≠ report_date)) ++ [entry])

/-! ## Concrete inputs used by counterexamples and witnesses -/

/-- Two strategies on two weight keys, 50/50, summing to 100. -/
def exW : List (String × ℤ) := [("a", 50), ("b", 50)]

/-- Performance summary flags: both strategies non-degraded. -/
def exSummary : List (String × Bool) := [("s1", false), ("s2", false)]

/-- Model of `strategy_to_weight_key` mapping. -/
def exMapping : List (String × String) := [("s1", "a"), ("s2", "b")]

/-- Adjustment config: step 5, max total shift 10, weight bounds [5, 95]. -/
def exCfgC1 : WeightAdjustmentCfg :=
  { step_pct := 5, max_total_adjustment_pct := 10, min_weight := 5, max_weight := 95 }

/-- Adjustment config: step 10, max total shift 15, weight bounds [0, 100]. -/
def exCfgC2 : WeightAdjustmentCfg :=
  { step_pct := 10, max_total_adjustment_pct := 15, min_weight := 0, max_weight := 100 }

/-- A single outcome record for strategy `s1`: one observation on the `1d`
horizon — fewer than `min_trades_required` of `exDegCfg`. -/
def exOutcomes : List OutcomeRecord :=
  [{ strategy_id := "s1", timestamp := "2026-01-01", returns_pct := [("1d", 1)] }]

/-- Degradation config requiring at least 2 trades per horizon. -/
def exDegCfg : DegradationCfg :=
  { window_size := 10, min_trades_required := 2, win_rate_threshold := 1/2,
    benchmark_return_by_horizon := [("1d", 0)] }

/-- An analysis config whose weights sum to 100 but whose rating thresholds
have `buy_min < hold_min` — inconsistent thresholds. -/
def exBadThresholdCfg : AnalysisConfig :=
  { weights := ⟨20, 20, 20, 20, 20⟩
    score_bounds := ⟨0, 100⟩
    rating_thresholds := ⟨10, 50⟩
    target_price := ⟨50, 1/2, -30, 30⟩
    risk_level_thresholds := ⟨70, 40⟩
    reason_generation := ⟨2, 2⟩
    safety_guards := ⟨⟨false⟩, some 10⟩ }

/-- A well-formed analysis config: weights 5 × 20 = 100, bounds [0, 100],
BUY ≥ 70, HOLD ≥ 40, drift cap 10. -/
def exAnalysisCfg : AnalysisConfig :=
  { weights := ⟨20, 20, 20, 20, 20⟩
    score_bounds := ⟨0, 100⟩
    rating_thresholds := ⟨70, 40⟩
    target_price := ⟨50, 1/2, -30, 30⟩
    risk_level_thresholds := ⟨70, 40⟩
    reason_generation := ⟨2, 2⟩
    safety_guards := ⟨⟨false⟩, some 10⟩ }

/-- All six component scores at 100. -/
def exPerfectScores : ComponentScores := ⟨100, 100, 100, 100, 100, 100⟩

/-- Analysis input whose uncapped composite score under `exAnalysisCfg`
is 100. -/
def exInput : AnalysisInput :=
  { ticker := "AAPL", mode := Mode.PRE_EARNINGS, current_price := 100,
    scores := exPerfectScores }

/-- A valid manual-analysis request payload. -/
def exPayload : ManualPayload :=
  { ticker := some " nvda "
    mode := some "PRE_EARNINGS"
    strategy_parameters := some ⟨some "low", some "swing", some "10-15%"⟩
    component_scores := some ⟨some 80, some 80, some 80, some 100, some 0, some 80⟩
    current_price_override := some 100
    current_price := none }

/-- The analysis input `exPayload` validates to. -/
def exPayloadInput : AnalysisInput :=
  { ticker := "NVDA", mode := Mode.PRE_EARNINGS, current_price := 100,
    scores := ⟨80, 80, 80, 100, 0, 80⟩ }

/-- The strategy parameters `exPayload` validates to. -/
def exPayloadStrategy : StrategyParameters :=
  { risk_tolerance := "low", time_horizon := "swing", expected_profit_target := "10-15%" }

/-- A sanity config: BUY ≥ 70 / HOLD ≥ 40, 1% target tolerance, penalty 5
per violation capped at 3 per stock, BUY-block below health 60. -/
def exSanityCfg : SanityConfig :=
  { rules := { rating_thresholds := ⟨70, 40⟩, target_return_tolerance_pct := 1 }
    health_score := { penalties := ⟨5⟩, violation_cap := 3 }
    behavior_controls := ⟨60⟩ }

/-- An analysis-result row rated BUY. -/
def exBuyRow : SanityRow :=
  { ticker := some "ABCD", score := some 72, rating := some "BUY",
    current_price := some 100, target_price := some 110, expected_return_pct := some 10,
    risk_level := some "Medium", key_reasons := ["x"], invalidating_factors := ["y"] }

/-- A sanity report with health score 10, below the block threshold 60. -/
def exLowReport : SanityReport :=
  { health_score := 10, max_health_score := 100, total_penalty := 90,
    violation_count := 5, per_stock := [] }

/-- A sanity report with health score 90, above the block threshold 60. -/
def exHighReport : SanityReport :=
  { health_score := 90, max_health_score := 100, total_penalty := 10,
    violation_count := 1, per_stock := [] }

/-! ## Evaluation helpers

`evolve_weights` only ever feeds `_round_preserve_total` integral values, so
on that domain the function collapses to an integer-only computation; the
next definitions and lemmas establish that collapse once, and concrete runs
are then evaluated on the integer form. -/

/-- Model of `_round_preserve_total` restricted to integral inputs: truncation is the
identity, every fractional part is `0`, and the distribution order is just
the keys sorted ascending. -/
def intRoundPreserveTotal (values : List (String × ℤ)) (total : ℤ) : List (String × ℤ) :=
  let remainder : ℤ := total - (values.map (fun p => p.2)).sum
  let keys := List.insertionSort (fun a b => pyStrLe a b = true) (values.map (fun p => p.1))
  if keys.isEmpty then values
  else
    (List.range (max 0 remainder).toNat).foldl
      (fun result index =>
        let k := keys.get! (index % keys.length)
        aset result k (alookupD result k 0 + 1))
      values

theorem pyTrunc_intCast (z : ℤ) : pyTrunc (z : ℚ) = z := by
  unfold pyTrunc
  rcases lt_or_le (z : ℚ) 0 with h | h
  · rw [if_pos h]
    rw [show (-(z : ℚ)) = ((-z : ℤ) : ℚ) by push_cast; ring, Int.floor_intCast]
    ring
  · rw [if_neg (not_lt.mpr h), Int.floor_intCast]

theorem orderedInsert_map {α β : Type} (f : α → β) (r : β → β → Prop)
    (s : α → α → Prop) [DecidableRel r] [DecidableRel s]
    (hrs : ∀ a b, s a b ↔ r (f a) (f b)) (a : α) (l : List α) :
    List.orderedInsert r (f a) (l.map f) = (List.orderedInsert s a l).map f := by
  induction l with
  | nil => simp [List.orderedInsert]
  | cons x xs ih =>
    by_cases h : s a x
    · simp [List.orderedInsert, if_pos h, if_pos ((hrs a x).mp h)]
    · simp only [List.map_cons, List.orderedInsert, if_neg h,
        if_neg (fun hr => h ((hrs a x).mpr hr)), List.map_cons, ih]

theorem insertionSort_map {α β : Type} (f : α → β) (r : β → β → Prop)
    (s : α → α → Prop) [DecidableRel r] [DecidableRel s]
    (hrs : ∀ a b, s a b ↔ r (f a) (f b)) (l : List α) :
    List.insertionSort r (l.map f) = (List.insertionSort s l).map f := by
  induction l with
  | nil => rfl
  | cons x xs ih =>
    simp only [List.map_cons, List.insertionSort, ih,
      orderedInsert_map f r s hrs x (List.insertionSort s xs)]

theorem roundPreserveTotal_intCast (l : List (String × ℤ)) (total : ℤ) :
    roundPreserveTotal (l.map (fun p => (p.1, (p.2 : ℚ)))) total =
      intRoundPreserveTotal l total := by
  unfold roundPreserveTotal intRoundPreserveTotal
  have hfloors :
      (l.map (fun p => (p.1, (p.2 : ℚ)))).map (fun p => (p.1, pyTrunc p.2)) = l := by
    rw [List.map_map]
    have : ∀ p : String × ℤ,
        ((fun p => (p.1, pyTrunc p.2)) ∘ fun p : String × ℤ => (p.1, (p.2 : ℚ))) p = p := by
      intro p; simp [Function.comp, pyTrunc_intCast]
    simpa using List.map_congr_left (fun p _ => this p) |>.trans (List.map_id l)
  have hfrac :
      (l.map (fun p => (p.1, (p.2 : ℚ)))).map (fun p => (p.1, p.2 - (pyTrunc p.2 : ℚ)))
        = (l.map (fun p => p.1)).map (fun k => (k, (0 : ℚ))) := by
    simp only [List.map_map]
    refine List.map_congr_left ?_
    intro p _
    simp [Function.comp, pyTrunc_intCast]
  have hsort :
      List.insertionSort
        (fun a b : String × ℚ => b.2 < a.2 ∨ (a.2 = b.2 ∧ pyStrLe a.1 b.1 = true))
        ((l.map (fun p => p.1)).map (fun k => (k, (0 : ℚ))))
      = (List.insertionSort (fun a b => pyStrLe a b = true) (l.map (fun p => p.1))).map
          (fun k => (k, (0 : ℚ))) := by
    refine insertionSort_map (fun k => (k, (0 : ℚ)))
      (fun a b => b.2 < a.2 ∨ (a.2 = b.2 ∧ pyStrLe a.1 b.1 = true))
      (fun a b => pyStrLe a b = true) ?_ (l.map (fun p => p.1))
    intro a b
    simp
  rw [hfloors, hfrac, hsort]
  dsimp only
  set keys := List.insertionSort (fun a b => pyStrLe a b = true) (l.map (fun p => p.1)) with hkeys
  have hie : (keys.map (fun k => (k, (0 : ℚ)))).isEmpty = keys.isEmpty := by
    cases keys <;> rfl
  rw [hie]
  by_cases hk : keys.isEmpty
  · rw [if_pos hk, if_pos hk]
  · rw [if_neg hk, if_neg hk]
    congr 1
    funext result index
    have hget : ∀ i : ℕ, ((keys.map (fun k => (k, (0 : ℚ))))[i]!).1 = keys[i]! := by
      intro i
      by_cases hi : i < keys.length
      · rw [getElem!_pos (keys.map (fun k => (k, (0 : ℚ)))) i (by simpa using hi),
          getElem!_pos keys i hi]
        simp
      · rw [getElem!_neg (keys.map (fun k => (k, (0 : ℚ)))) i (by simpa using hi),
          getElem!_neg keys i hi]
        rfl
    simp [hget]

/-- Model of `evolve_weights` computed entirely over the integers: the normalization
step receives only integral values, on which `_round_preserve_total` is
`intRoundPreserveTotal`. -/
theorem evolve_weights_eq_int (w : List (String × ℤ)) (s : List (String × Bool))
    (m : List (String × String)) (a : WeightAdjustmentCfg) :
    evolve_weights w s m a =
      (intRoundPreserveTotal
        (evolveLoop a s { candidate := w, changes := [], total_shift := 0 }
          (List.insertionSort (fun x y => pyStrLe x.1 y.1 = true) m)).candidate 100,
       (evolveLoop a s { candidate := w, changes := [], total_shift := 0 }
          (List.insertionSort (fun x y => pyStrLe x.1 y.1 = true) m)).changes) := by
  simp only [evolve_weights]
  rw [roundPreserveTotal_intCast]

/-! ## Association-list lemmas -/

theorem alookup_cons {α : Type} (x : String × α) (xs : List (String × α)) (k : String) :
    alookup (x :: xs) k = if x.1 = k then some x.2 else alookup xs k := by
  unfold alookup
  by_cases h : x.1 = k
  · rw [List.find?_cons_of_pos _ (by simpa using h), if_pos h]
    rfl
  · rw [List.find?_cons_of_neg _ (by simpa using h), if_neg h]

theorem alookup_mem {α : Type} {d : List (String × α)} {k : String} {v : α}
    (h : alookup d k = some v) : (k, v) ∈ d := by
  unfold alookup at h
  rcases hf : d.find? (fun p => p.1 = k) with _ | p
  · rw [hf] at h; simp at h
  · rw [hf] at h
    have hp : p.1 = k := by simpa using List.find?_some hf
    have hm : p ∈ d := List.mem_of_find?_eq_some hf
    have hv : p.2 = v := by simpa using h
    cases p
    simp only at hp hv
    rw [← hp, ← hv]
    exact hm

theorem alookup_map_replace_ne {α : Type} (d : List (String × α)) (k : String) (v : α)
    (k' : String) (h : k' ≠ k) :
    alookup (d.map (fun p => if p.1 = k then (k, v) else p)) k' = alookup d k' := by
  induction d with
  | nil => rfl
  | cons p rest ih =>
    by_cases hp : p.1 = k
    · rw [List.map_cons, if_pos hp, alookup_cons, alookup_cons, if_neg (fun hk => h hk.symm),
        if_neg (fun hpk => h (hp ▸ hpk).symm), ih]
    · rw [List.map_cons, if_neg hp, alookup_cons, alookup_cons, ih]

theorem alookup_map_replace_eq {α : Type} (d : List (String × α)) (k : String) (v : α)
    (h : (d.find? (fun p => p.1 = k)).isSome) :
    alookup (d.map (fun p => if p.1 = k then (k, v) else p)) k = some v := by
  induction d with
  | nil => simp at h
  | cons p rest ih =>
    by_cases hp : p.1 = k
    · rw [List.map_cons, if_pos hp, alookup_cons, if_pos rfl]
    · rw [List.find?_cons_of_neg _ (by simpa using hp)] at h
      rw [List.map_cons, if_neg hp, alookup_cons, if_neg hp, ih h]

theorem alookup_append_single {α : Type} (d : List (String × α)) (k : String) (v : α)
    (k' : String) :
    alookup (d ++ [(k, v)]) k' =
      match alookup d k' with
      | some w => some w
      | none => if k = k' then some v else none := by
  induction d with
  | nil =>
    rw [List.nil_append, alookup_cons]
    rfl
  | cons p rest ih =>
    rw [List.cons_append, alookup_cons, alookup_cons]
    by_cases hp : p.1 = k'
    · rw [if_pos hp, if_pos hp]
    · rw [if_neg hp, if_neg hp, ih]

/-- Full characterization of dict assignment: after `d[k] = v`, looking up `k`
gives `v` and every other key is untouched. -/
theorem alookup_aset {α : Type} (d : List (String × α)) (k : String) (v : α) (k' : String) :
    alookup (aset d k v) k' = if k' = k then some v else alookup d k' := by
  unfold aset
  by_cases hp : (d.find? (fun p => p.1 = k)).isSome
  · rw [if_pos hp]
    by_cases hk : k' = k
    · rw [if_pos hk, hk, alookup_map_replace_eq d k v hp]
    · rw [if_neg hk, alookup_map_replace_ne d k v k' hk]
  · rw [if_neg hp, alookup_append_single]
    have hnone : alookup d k = none := by
      unfold alookup
      rcases hf : d.find? (fun p => p.1 = k) with _ | p
      · rw [hf]; rfl
      · rw [hf] at hp; simp at hp
    by_cases hk : k' = k
    · rw [if_pos hk, hk, hnone, if_pos rfl]
    · rw [if_neg hk]
      rcases hl : alookup d k' with _ | w
      · rw [if_neg (fun he => hk he.symm)]
      · rfl

theorem mem_aset {α : Type} {d : List (String × α)} {k : String} {v : α} {q : String × α}
    (h : q ∈ aset d k v) : q ∈ d ∨ q = (k, v) := by
  unfold aset at h
  by_cases hp : (d.find? (fun p => p.1 = k)).isSome
  · rw [if_pos hp] at h
    rcases List.mem_map.mp h with ⟨p, hpd, hpq⟩
    by_cases hpk : p.1 = k
    · rw [if_pos hpk] at hpq
      exact Or.inr hpq.symm
    · rw [if_neg hpk] at hpq
      exact Or.inl (hpq ▸ hpd)
  · rw [if_neg hp] at h
    rcases List.mem_append.mp h with hd | hs
    · exact Or.inl hd
    · exact Or.inr (by simpa using hs)

theorem cumulativeShift_append (l : List WeightChange) (c : WeightChange) :
    cumulativeShift (l ++ [c]) = cumulativeShift l + |c.new_weight - c.old_weight| := by
  simp [cumulativeShift]

/-! ## Invariants of the adjustment loop -/

/-- Exhaustive case analysis of one loop iteration: either the state is
untouched, or exactly one weight key moved by a (clamped) step and the change
was appended with the matching shift. -/
theorem evolveStep_cases (acfg : WeightAdjustmentCfg) (s : List (String × Bool))
    (st : EvolveState) (pr : String × String) :
    evolveStep acfg s st pr = st ∨
    ∃ new : ℤ,
      new ≠ alookupD st.candidate pr.2 0 ∧
      ((summaryDegraded s pr.1 = some true ∧
          new = max acfg.min_weight (alookupD st.candidate pr.2 0 - acfg.step_pct)) ∨
       (summaryDegraded s pr.1 = some false ∧
          new = min acfg.max_weight (alookupD st.candidate pr.2 0 + acfg.step_pct))) ∧
      (evolveStep acfg s st pr).candidate = aset st.candidate pr.2 new ∧
      (∃ reason,
        (evolveStep acfg s st pr).changes = st.changes ++
          [{ strategy_id := pr.1, weight_key := pr.2,
             old_weight := alookupD st.candidate pr.2 0, new_weight := new,
             reason := reason }]) ∧
      (evolveStep acfg s st pr).total_shift =
        st.total_shift + |new - alookupD st.candidate pr.2 0| := by
  rcases hm : summaryDegraded s pr.1 with _ | b
  · left
    simp [evolveStep, hm]
  · cases b
    · by_cases hne :
        min acfg.max_weight (alookupD st.candidate pr.2 0 + acfg.step_pct) =
          alookupD st.candidate pr.2 0
      · left
        simp [evolveStep, hm, hne]
      · right
        exact ⟨min acfg.max_weight (alookupD st.candidate pr.2 0 + acfg.step_pct), hne,
          Or.inr ⟨rfl, rfl⟩,
          by simp [evolveStep, hm, hne],
          ⟨"relative outperformance detected", by simp [evolveStep, hm, hne]⟩,
          by simp [evolveStep, hm, hne]⟩
    · by_cases hne :
        max acfg.min_weight (alookupD st.candidate pr.2 0 - acfg.step_pct) =
          alookupD st.candidate pr.2 0
      · left
        simp [evolveStep, hm, hne]
      · right
        exact ⟨max acfg.min_weight (alookupD st.candidate pr.2 0 - acfg.step_pct), hne,
          Or.inl ⟨rfl, rfl⟩,
          by simp [evolveStep, hm, hne],
          ⟨"degraded performance detected", by simp [evolveStep, hm, hne]⟩,
          by simp [evolveStep, hm, hne]⟩

theorem evolveStep_lookup_isSome (acfg : WeightAdjustmentCfg) (s : List (String × Bool))
    (st : EvolveState) (pr : String × String) (k : String)
    (h : (alookup st.candidate k).isSome) :
    (alookup (evolveStep acfg s st pr).candidate k).isSome := by
  rcases evolveStep_cases acfg s st pr with he | ⟨new, _, _, hc, _, _⟩
  · rw [he]; exact h
  · rw [hc, alookup_aset]
    by_cases hk : k = pr.2
    · rw [if_pos hk]; rfl
    · rw [if_neg hk]; exact h

theorem evolveStep_range (acfg : WeightAdjustmentCfg) (s : List (String × Bool))
    (st : EvolveState) (pr : String × String)
    (hmm : acfg.min_weight ≤ acfg.max_weight) (hstep : 0 ≤ acfg.step_pct)
    (hpr : (alookup st.candidate pr.2).isSome)
    (hr : ∀ q ∈ st.candidate, acfg.min_weight ≤ q.2 ∧ q.2 ≤ acfg.max_weight) :
    ∀ q ∈ (evolveStep acfg s st pr).candidate,
      acfg.min_weight ≤ q.2 ∧ q.2 ≤ acfg.max_weight := by
  obtain ⟨v, hv⟩ := Option.isSome_iff_exists.mp hpr
  have hold : alookupD st.candidate pr.2 0 = v := by simp [alookupD, hv]
  have hvb := hr _ (alookup_mem hv)
  simp only at hvb
  rcases evolveStep_cases acfg s st pr with he | ⟨new, _, hcase, hc, _, _⟩
  · rw [he]; exact hr
  · rw [hc]
    intro q hq
    rcases mem_aset hq with hqd | hqe
    · exact hr q hqd
    · subst hqe
      simp only
      rcases hcase with ⟨_, hnew⟩ | ⟨_, hnew⟩
      · subst hnew
        rw [hold]
        exact ⟨le_max_left _ _, max_le hmm (by linarith [hvb.2])⟩
      · subst hnew
        rw [hold]
        exact ⟨le_min hmm (by linarith [hvb.1]), min_le_left _ _⟩

theorem evolveStep_shift_le (acfg : WeightAdjustmentCfg) (s : List (String × Bool))
    (st : EvolveState) (pr : String × String)
    (hmm : acfg.min_weight ≤ acfg.max_weight) (hstep : 0 ≤ acfg.step_pct)
    (hpr : (alookup st.candidate pr.2).isSome)
    (hr : ∀ q ∈ st.candidate, acfg.min_weight ≤ q.2 ∧ q.2 ≤ acfg.max_weight) :
    (evolveStep acfg s st pr).total_shift ≤ st.total_shift + acfg.step_pct := by
  obtain ⟨v, hv⟩ := Option.isSome_iff_exists.mp hpr
  have hold : alookupD st.candidate pr.2 0 = v := by simp [alookupD, hv]
  have hvb := hr _ (alookup_mem hv)
  simp only at hvb
  rcases evolveStep_cases acfg s st pr with he | ⟨new, _, hcase, _, _, hts⟩
  · rw [he]; linarith
  · rw [hts, hold]
    have habs : |new - v| ≤ acfg.step_pct := by
      rcases hcase with ⟨_, hnew⟩ | ⟨_, hnew⟩
      · rw [hold] at hnew
        have h1 : v - acfg.step_pct ≤ new := hnew ▸ le_max_right _ _
        have h2 : new ≤ v := hnew ▸ max_le (by linarith [hvb.1]) (by linarith)
        rw [abs_le]
        constructor <;> linarith
      · rw [hold] at hnew
        have h1 : new ≤ v + acfg.step_pct := hnew ▸ min_le_right _ _
        have h2 : v ≤ new := hnew ▸ le_min (by linarith [hvb.2]) (by linarith)
        rw [abs_le]
        constructor <;> linarith
    linarith

theorem evolveStep_cum (acfg : WeightAdjustmentCfg) (s : List (String × Bool))
    (st : EvolveState) (pr : String × String)
    (h : st.total_shift = cumulativeShift st.changes) :
    (evolveStep acfg s st pr).total_shift =
      cumulativeShift (evolveStep acfg s st pr).changes := by
  rcases evolveStep_cases acfg s st pr with he | ⟨new, _, _, _, ⟨reason, hch⟩, hts⟩
  · rw [he]; exact h
  · rw [hts, hch, cumulativeShift_append, h]

theorem evolveLoop_cum (acfg : WeightAdjustmentCfg) (s : List (String × Bool)) :
    ∀ (pairs : List (String × String)) (st : EvolveState),
    st.total_shift = cumulativeShift st.changes →
    (evolveLoop acfg s st pairs).total_shift =
      cumulativeShift (evolveLoop acfg s st pairs).changes := by
  intro pairs
  induction pairs with
  | nil => intro st h; exact h
  | cons pr rest ih =>
    intro st h
    rw [evolveLoop]
    by_cases hb : acfg.max_total_adjustment_pct ≤ st.total_shift
    · rw [if_pos hb]; exact h
    · rw [if_neg hb]
      exact ih _ (evolveStep_cum acfg s st pr h)

theorem evolveLoop_bound (acfg : WeightAdjustmentCfg) (s : List (String × Bool))
    (hstep1 : 1 ≤ acfg.step_pct) (hmm : acfg.min_weight ≤ acfg.max_weight) :
    ∀ (pairs : List (String × String)) (st : EvolveState),
    (∀ pr ∈ pairs, (alookup st.candidate pr.2).isSome) →
    (∀ q ∈ st.candidate, acfg.min_weight ≤ q.2 ∧ q.2 ≤ acfg.max_weight) →
    st.total_shift ≤ acfg.max_total_adjustment_pct - 1 + acfg.step_pct →
    (evolveLoop acfg s st pairs).total_shift ≤
      acfg.max_total_adjustment_pct - 1 + acfg.step_pct := by
  intro pairs
  induction pairs with
  | nil => intro st _ _ hb; exact hb
  | cons pr rest ih =>
    intro st hkeys hr hb
    rw [evolveLoop]
    by_cases hstop : acfg.max_total_adjustment_pct ≤ st.total_shift
    · rw [if_pos hstop]; exact hb
    · rw [if_neg hstop]
      have hts : st.total_shift ≤ acfg.max_total_adjustment_pct - 1 := by
        omega
      have hpr : (alookup st.candidate pr.2).isSome := hkeys pr (List.mem_cons_self pr rest)
      refine ih (evolveStep acfg s st pr) ?_ ?_ ?_
      · intro q hq
        exact evolveStep_lookup_isSome acfg s st pr q.2
          (hkeys q (List.mem_cons_of_mem pr hq))
      · exact evolveStep_range acfg s st pr hmm (by linarith) hpr hr
      · have := evolveStep_shift_le acfg s st pr hmm (by linarith) hpr hr
        linarith

theorem evolveStep_changes_ne (acfg : WeightAdjustmentCfg) (s : List (String × Bool))
    (st : EvolveState) (pr : String × String) (sid : String)
    (hnone : summaryDegraded s sid = none)
    (hst : ∀ c ∈ st.changes, c.strategy_id ≠ sid) :
    ∀ c ∈ (evolveStep acfg s st pr).changes, c.strategy_id ≠ sid := by
  by_cases hps : pr.1 = sid
  · have hm : summaryDegraded s pr.1 = none := hps ▸ hnone
    have he : evolveStep acfg s st pr = st := by
      simp [evolveStep, hm]
    rw [he]
    exact hst
  · rcases evolveStep_cases acfg s st pr with he | ⟨new, _, _, _, ⟨r, hch⟩, _⟩
    · rw [he]; exact hst
    · rw [hch]
      intro c hc
      rcases List.mem_append.mp hc with h1 | h2
      · exact hst c h1
      · have hc2 := List.mem_singleton.mp h2
        subst hc2
        simpa using hps

theorem evolveLoop_changes_ne (acfg : WeightAdjustmentCfg) (s : List (String × Bool))
    (sid : String) (hnone : summaryDegraded s sid = none) :
    ∀ (pairs : List (String × String)) (st : EvolveState),
    (∀ c ∈ st.changes, c.strategy_id ≠ sid) →
    ∀ c ∈ (evolveLoop acfg s st pairs).changes, c.strategy_id ≠ sid := by
  intro pairs
  induction pairs with
  | nil => intro st hst; exact hst
  | cons pr rest ih =>
    intro st hst
    rw [evolveLoop]
    by_cases hstop : acfg.max_total_adjustment_pct ≤ st.total_shift
    · rw [if_pos hstop]; exact hst
    · rw [if_neg hstop]
      exact ih _ (evolveStep_changes_ne acfg s st pr sid hnone hst)

/-- A strategy with no outcome record at all is absent from the performance
summary, hence from the degraded/outperforming flag dict. -/
theorem summaryDegraded_of_no_records (outcomes : List OutcomeRecord)
    (dcfg : DegradationCfg) (horizons : List String) (sid : String)
    (h : ∀ r ∈ outcomes, r.strategy_id ≠ sid) :
    summaryDegraded
      (summaryFlags (summarize_strategy_performance outcomes dcfg horizons)) sid = none := by
  unfold summaryDegraded alookup
  have hfind : (summaryFlags
      (summarize_strategy_performance outcomes dcfg horizons)).find?
        (fun p => p.1 = sid) = none := by
    rw [List.find?_eq_none]
    intro x hx
    simp only [summaryFlags, summarize_strategy_performance, List.mem_map] at hx
    rcases hx with ⟨q, hq, hqx⟩
    rcases hq with ⟨sid', hsid', hq⟩
    have hmem : sid' ∈ (outcomes.map (fun r => r.strategy_id)).dedup :=
      (List.perm_insertionSort _ _).mem_iff.mp hsid'
    have hmem2 : sid' ∈ outcomes.map (fun r => r.strategy_id) :=
      List.mem_dedup.mp hmem
    rcases List.mem_map.mp hmem2 with ⟨rec, hrec, hrid⟩
    have hne : sid' ≠ sid := hrid ▸ h rec hrec
    have hx1 : x.1 = sid' := by
      rw [← hqx, ← hq]
    simp [hx1, hne]
  rw [hfind]
  rfl

/-! ## Claim C1 -/

/-- C1: the claim states that for every weight mapping summing to 100 the
weights returned by `evolve_weights` sum to exactly 100 after the
floor-and-distribute normalization.  The code violates this: with 50/50
weights, both strategies non-degraded, step 5 and total cap 10, both weights
are stepped up to 55; the candidate then sums to 110, the remainder in
`_round_preserve_total` is negative, nothing is subtracted, and the returned
weights sum to 110, not 100 — contradicting the function's own name and the
downstream load-time invariant.  This theorem evaluates the code at that
failing input. -/
theorem c1_normalization_total_violated :
    weightTotal exW = 100 ∧
    (evolve_weights exW exSummary exMapping exCfgC1).1 = [("a", 55), ("b", 55)] ∧
    weightTotal (evolve_weights exW exSummary exMapping exCfgC1).1 = 110 := by
  rw [evolve_weights_eq_int]
  decide

/-! ## Claim C2 -/

/-- C2 counterexample: the cumulative absolute shift CAN exceed
`max_total_adjustment_pct`.  With step 10 and cap 15, the first adjustment
brings the total to 10 (< 15, so the loop continues) and the second brings it
to 20 > 15. -/
theorem c2_shift_cap_counterexample :
    exCfgC2.max_total_adjustment_pct <
      cumulativeShift (evolve_weights exW exSummary exMapping exCfgC2).2 := by
  rw [evolve_weights_eq_int]
  decide

/-- C2 amended: the loop checks `total_shift >= max_total_adjustment_pct`
*before* each adjustment, so the total before the last applied change is
below the cap and each applied change moves a weight by at most `step_pct`
(given weights within `[min_weight, max_weight]`); hence the cumulative
absolute shift is at most `max_total_adjustment_pct + step_pct - 1`. -/
theorem c2_cumulative_shift_bounded (w : List (String × ℤ)) (s : List (String × Bool))
    (m : List (String × String)) (acfg : WeightAdjustmentCfg)
    (hstep1 : 1 ≤ acfg.step_pct)
    (hms : 0 ≤ acfg.max_total_adjustment_pct)
    (hmm : acfg.min_weight ≤ acfg.max_weight)
    (hkeys : ∀ pr ∈ m, (alookup w pr.2).isSome)
    (hrange : ∀ q ∈ w, acfg.min_weight ≤ q.2 ∧ q.2 ≤ acfg.max_weight) :
    cumulativeShift (evolve_weights w s m acfg).2 ≤
      acfg.max_total_adjustment_pct + acfg.step_pct - 1 := by
  rw [evolve_weights_eq_int]
  have hkeys' : ∀ pr ∈ List.insertionSort (fun x y => pyStrLe x.1 y.1 = true) m,
      (alookup w pr.2).isSome := by
    intro pr hpr
    exact hkeys pr ((List.perm_insertionSort _ m).mem_iff.mp hpr)
  have hcum := evolveLoop_cum acfg s
    (List.insertionSort (fun x y => pyStrLe x.1 y.1 = true) m)
    { candidate := w, changes := [], total_shift := 0 } (by simp [cumulativeShift])
  have hbound := evolveLoop_bound acfg s hstep1 hmm
    (List.insertionSort (fun x y => pyStrLe x.1 y.1 = true) m)
    { candidate := w, changes := [], total_shift := 0 } hkeys' hrange
    (by simp only; linarith)
  rw [hcum] at hbound
  dsimp only
  linarith

/-- C2 witness: the amended bound applied at the counterexample input
(total shift 20 ≤ 15 + 10 − 1). -/
theorem c2_cumulative_shift_bounded_witness :
    cumulativeShift (evolve_weights exW exSummary exMapping exCfgC2).2 ≤
      exCfgC2.max_total_adjustment_pct + exCfgC2.step_pct - 1 :=
  c2_cumulative_shift_bounded exW exSummary exMapping exCfgC2
    (by decide) (by decide) (by decide) (by decide) (by decide)

/-! ## Claim C3 -/

/-- C3 counterexample: a strategy with SOME outcome records but fewer than
`min_trades_required` observations on every tracked horizon is classified
non-degraded by `summarize_strategy_performance` (no horizon produces a
degradation reason), so `evolve_weights` treats it as outperforming, steps
its weight up, and records a `WeightChange` for it — the claim says it is
left unchanged with no recorded change. -/
theorem c3_insufficient_data_counterexample :
    ((evolve_weights exW
        (summaryFlags (summarize_strategy_performance exOutcomes exDegCfg ["1d"]))
        exMapping exCfgC1).2.map (fun c => c.strategy_id)) = ["s1"] ∧
    alookup (evolve_weights exW
        (summaryFlags (summarize_strategy_performance exOutcomes exDegCfg ["1d"]))
        exMapping exCfgC1).1 "a" = some 55 := by
  rw [evolve_weights_eq_int]
  decide

/-- C3 amended: only a strategy with NO outcome records at all (absent from
the performance summary) is skipped: no `WeightChange` is recorded for it.
A strategy with some records but insufficient observations per horizon is
treated as non-degraded and may be stepped up; normalization may additionally
move any weight key. -/
theorem c3_no_records_no_change (outcomes : List OutcomeRecord) (dcfg : DegradationCfg)
    (horizons : List String) (w : List (String × ℤ)) (m : List (String × String))
    (acfg : WeightAdjustmentCfg) (sid : String)
    (h : ∀ r ∈ outcomes, r.strategy_id ≠ sid) :
    ∀ c ∈ (evolve_weights w
        (summaryFlags (summarize_strategy_performance outcomes dcfg horizons))
        m acfg).2, c.strategy_id ≠ sid := by
  rw [evolve_weights_eq_int]
  exact evolveLoop_changes_ne _ _ sid
    (summaryDegraded_of_no_records outcomes dcfg horizons sid h) _ _ (by simp)

/-- C3 witness: no change is recorded for strategy `s2`, which has no outcome
records in `exOutcomes`. -/
theorem c3_no_records_no_change_witness :
    ((evolve_weights exW
        (summaryFlags (summarize_strategy_performance exOutcomes exDegCfg ["1d"]))
        exMapping exCfgC1).2.filter (fun c => c.strategy_id = "s2")) = [] := by
  have h := c3_no_records_no_change exOutcomes exDegCfg ["1d"] exW exMapping exCfgC1 "s2"
    (by decide)
  exact List.filter_eq_nil_iff.mpr (fun c hc => by simpa using h c hc)

/-! ## Claim C4 -/

/-- C4 counterexample: `load_analysis_config` does NOT validate the rating
thresholds.  A config whose weights sum to 100 but whose thresholds have
`buy_min < hold_min` passes `_validate_config` without an error, while the
claim says loading raises on such a config. -/
theorem c4_thresholds_not_validated :
    _validate_config exBadThresholdCfg = Except.ok () ∧
    exBadThresholdCfg.rating_thresholds.buy_min <
      exBadThresholdCfg.rating_thresholds.hold_min :=
  ⟨rfl, by decide⟩

/-- C4 amended: config validation is eager and fatal, but checks exactly one
thing — `_validate_config` succeeds iff the scoring weights sum to exactly
100 (raising `ValueError` otherwise); the rating thresholds are not checked
at load time. -/
theorem c4_validate_iff_weights_100 (config : AnalysisConfig) :
    _validate_config config = Except.ok () ↔ weightsTotal config.weights = 100 := by
  unfold _validate_config
  by_cases h : weightsTotal config.weights = 100
  · simp [h]
  · simp [h]

/-- C4 witness: the amended characterization at a concrete config. -/
theorem c4_validate_iff_weights_100_witness :
    _validate_config exAnalysisCfg = Except.ok () :=
  (c4_validate_iff_weights_100 exAnalysisCfg).mpr (by decide)

/-! ## Claim C5 -/

/-- C5: with a previous score supplied, `disable_score_change_cap` unset and
`max_daily_score_change` present, the final score of `analyze_stock` is the
uncapped composite score clamped to
`[previous − max_daily_score_change, previous + max_daily_score_change]`,
and `score_before_daily_cap` carries the uncapped composite score. -/
theorem c5_daily_cap_final_score (analysis_input : AnalysisInput)
    (config : AnalysisConfig) (previous mc : ℤ)
    (hov : config.safety_guards.manual_overrides.disable_score_change_cap = false)
    (hmc : config.safety_guards.max_daily_score_change = some mc) :
    (analyze_stock analysis_input config (some previous)).score =
      max (previous - mc) (min (previous + mc)
        (calculate_composite_score (calculate_score_breakdown analysis_input config) config)) ∧
    (analyze_stock analysis_input config (some previous)).score_before_daily_cap =
      some (calculate_composite_score (calculate_score_breakdown analysis_input config) config) := by
  constructor
  · simp [analyze_stock, apply_daily_score_change_cap, hov, hmc]
  · simp [analyze_stock]

theorem weightOf_tm (w : Weights) : weightOf w "trend_momentum" = w.trend_momentum := rfl

theorem weightOf_fund (w : Weights) : weightOf w "fundamentals" = w.fundamentals := rfl

theorem weightOf_ns (w : Weights) : weightOf w "news_sentiment" = w.news_sentiment := rfl

theorem weightOf_ec (w : Weights) : weightOf w "earnings_context" = w.earnings_context := rfl

theorem weightOf_rv (w : Weights) : weightOf w "risk_volatility" = w.risk_volatility := rfl

/-- Under `exAnalysisCfg`, all-100 component scores give an uncapped
composite score of 100. -/
theorem exInput_composite :
    calculate_composite_score (calculate_score_breakdown exInput exAnalysisCfg)
      exAnalysisCfg = 100 := by
  norm_num [calculate_composite_score, calculate_score_breakdown, _clamp,
    _selected_earnings_score, weightOf_tm, weightOf_fund, weightOf_ns, weightOf_ec,
    weightOf_rv, pyRound, pyTrunc, exInput, exAnalysisCfg, exPerfectScores]

/-- C5 witness: the spec's own example — previous score 40, uncapped
composite 100, cap 10 — yields final score 50 = previous + cap, with
`score_before_daily_cap = 100`. -/
theorem c5_daily_cap_final_score_witness :
    (analyze_stock exInput exAnalysisCfg (some 40)).score = 50 ∧
    (analyze_stock exInput exAnalysisCfg (some 40)).score_before_daily_cap = some 100 := by
  have h := c5_daily_cap_final_score exInput exAnalysisCfg 40 10 rfl rfl
  rw [exInput_composite] at h
  exact ⟨by rw [h.1]; decide, by rw [h.2]⟩

/-! ## Claim C10 -/

/-- C10: every manual-analysis request that passes validation is analysed
WITHOUT a previous score, so the result never carries `previous_score` or
`score_before_daily_cap` and its score is the uncapped composite score (the
daily drift cap never applies to manual analysis). -/
theorem c10_manual_analysis_uncapped (payload : ManualPayload) (config : AnalysisConfig)
    (analysis_input : AnalysisInput) (strategy : StrategyParameters)
    (h : validate_manual_request payload = Except.ok (analysis_input, strategy)) :
    handle_manual_analysis payload config =
      Except.ok (200, { result := analyze_stock analysis_input config,
                        strategy_parameters := strategy }) ∧
    (analyze_stock analysis_input config).previous_score = none ∧
    (analyze_stock analysis_input config).score_before_daily_cap = none ∧
    (analyze_stock analysis_input config).score =
      calculate_composite_score (calculate_score_breakdown analysis_input config) config := by
  refine ⟨?_, ?_, ?_, ?_⟩
  · simp [handle_manual_analysis, h]
  · simp [analyze_stock]
  · simp [analyze_stock]
  · simp [analyze_stock, apply_daily_score_change_cap]

/-! ## Claim C6 -/

/-- C6: `evaluate_daily_sanity` charges each stock
`min(violation_count, violation_cap) × per_violation_penalty` and reports
`health_score = max(0, 100 − Σ per-stock penalties)`. -/
theorem c6_penalty_formula (analysis_results : List SanityRow) (config : SanityConfig) :
    (∀ entry ∈ (evaluate_daily_sanity analysis_results config).per_stock,
      entry.penalty =
        min (entry.violations.length : ℤ) config.health_score.violation_cap *
          config.health_score.penalties.per_violation) ∧
    (evaluate_daily_sanity analysis_results config).health_score =
      max 0 (100 - ((evaluate_daily_sanity analysis_results config).per_stock.map
        (fun entry => entry.penalty)).sum) := by
  constructor
  · intro entry hentry
    simp only [evaluate_daily_sanity, List.mem_map] at hentry
    rcases hentry with ⟨row, _, hrow⟩
    subst hrow
    rfl
  · rfl

/-! ## Claim C7 -/

/-- The adjusted batch is the pointwise enrichment of the input batch. -/
theorem apply_health_controls_fst (analysis_results : List SanityRow)
    (sanity_report : SanityReport) (config : SanityConfig) :
    (apply_health_controls analysis_results sanity_report config).1 =
      analysis_results.map (fun row =>
        (healthControlsLoopBody
          (decide (sanity_report.health_score <
            config.behavior_controls.block_buy_below_health_score))
          sanity_report.health_score row).2) := by
  simp [apply_health_controls]

/-- C7: when the health score is below `block_buy_below_health_score`, every
row's enrichment has `sanity_guard_active = true`, preserves the original
rating under `base_rating`, and rewrites rating BUY to HOLD with the reason
`health_guard_blocked_buy`; at or above the threshold every row keeps its
original rating and the guard flag is false. -/
theorem c7_health_guard (analysis_results : List SanityRow)
    (sanity_report : SanityReport) (config : SanityConfig) :
    ((sanity_report.health_score < config.behavior_controls.block_buy_below_health_score →
      List.Forall₂ (fun (adj : AdjustedRow) (row : SanityRow) =>
        adj.sanity_guard_active = true ∧ adj.base_rating = row.rating ∧
        (row.rating = some "BUY" →
          adj.row.rating = some "HOLD" ∧
          adj.sanity_adjustment_reason = some "health_guard_blocked_buy"))
        (apply_health_controls analysis_results sanity_report config).1
        analysis_results) ∧
     (config.behavior_controls.block_buy_below_health_score ≤ sanity_report.health_score →
      List.Forall₂ (fun (adj : AdjustedRow) (row : SanityRow) =>
        adj.row.rating = row.rating ∧ adj.sanity_guard_active = false)
        (apply_health_controls analysis_results sanity_report config).1
        analysis_results)) := by
  constructor
  · intro hlt
    rw [apply_health_controls_fst, List.forall₂_map_left_iff, List.forall₂_same]
    intro row _
    simp only [healthControlsLoopBody]
    by_cases hb : row.rating = some "BUY"
    · rw [if_pos ⟨decide_eq_true hlt, hb⟩]
      exact ⟨decide_eq_true hlt, rfl, fun _ => ⟨rfl, rfl⟩⟩
    · rw [if_neg (fun hc => hb hc.2)]
      exact ⟨decide_eq_true hlt, rfl, fun hbuy => absurd hbuy hb⟩
  · intro hge
    have hfalse : decide (sanity_report.health_score <
        config.behavior_controls.block_buy_below_health_score) = false :=
      decide_eq_false (not_lt.mpr hge)
    rw [apply_health_controls_fst, List.forall₂_map_left_iff, List.forall₂_same]
    intro row _
    simp only [healthControlsLoopBody]
    rw [if_neg (fun hc => by rw [hfalse] at hc; exact Bool.false_ne_true hc.1)]
    exact ⟨rfl, hfalse⟩

/-- C7 witness: a BUY row is rewritten to HOLD under a low health score and
kept under a high one. -/
theorem c7_health_guard_witness :
    List.Forall₂ (fun (adj : AdjustedRow) (row : SanityRow) =>
        adj.sanity_guard_active = true ∧ adj.base_rating = row.rating ∧
        (row.rating = some "BUY" →
          adj.row.rating = some "HOLD" ∧
          adj.sanity_adjustment_reason = some "health_guard_blocked_buy"))
      (apply_health_controls [exBuyRow] exLowReport exSanityCfg).1 [exBuyRow] ∧
    List.Forall₂ (fun (adj : AdjustedRow) (row : SanityRow) =>
        adj.row.rating = row.rating ∧ adj.sanity_guard_active = false)
      (apply_health_controls [exBuyRow] exHighReport exSanityCfg).1 [exBuyRow] :=
  ⟨(c7_health_guard [exBuyRow] exLowReport exSanityCfg).1 (by decide),
   (c7_health_guard [exBuyRow] exHighReport exSanityCfg).2 (by decide)⟩

/-! ## Claim C9 -/

/-- C9: `apply_health_controls` does not mutate its input — the loop copies
each row (`dict(row)`) and every assignment targets the copy, so the
caller-visible row values after the call equal the inputs; and each adjusted
record is a fresh enrichment agreeing with its input row on every original
field, except that the rating may be overlaid BUY→HOLD. -/
theorem c9_no_input_mutation (analysis_results : List SanityRow)
    (sanity_report : SanityReport) (config : SanityConfig) :
    apply_health_controls_post_rows analysis_results sanity_report config =
      analysis_results ∧
    List.Forall₂ (fun (adj : AdjustedRow) (row : SanityRow) =>
        adj.base_rating = row.rating ∧
        adj.row.ticker = row.ticker ∧
        adj.row.score = row.score ∧
        adj.row.current_price = row.current_price ∧
        adj.row.target_price = row.target_price ∧
        adj.row.expected_return_pct = row.expected_return_pct ∧
        adj.row.risk_level = row.risk_level ∧
        adj.row.key_reasons = row.key_reasons ∧
        adj.row.invalidating_factors = row.invalidating_factors ∧
        (adj.row.rating = row.rating ∨
          (row.rating = some "BUY" ∧ adj.row.rating = some "HOLD")))
      (apply_health_controls analysis_results sanity_report config).1
      analysis_results := by
  constructor
  · have hid : ∀ (g : Bool) (hs : ℤ),
        ((fun p : SanityRow × AdjustedRow => p.1) ∘ healthControlsLoopBody g hs) = id :=
      fun g hs => funext fun row => rfl
    simp [apply_health_controls_post_rows, List.map_map, hid]
  · rw [apply_health_controls_fst, List.forall₂_map_left_iff, List.forall₂_same]
    intro row _
    simp only [healthControlsLoopBody]
    by_cases hc : (decide (sanity_report.health_score <
        config.behavior_controls.block_buy_below_health_score) = true) ∧
        row.rating = some "BUY"
    · rw [if_pos hc]
      exact ⟨rfl, rfl, rfl, rfl, rfl, rfl, rfl, rfl, rfl, Or.inr ⟨hc.2, rfl⟩⟩
    · rw [if_neg hc]
      exact ⟨rfl, rfl, rfl, rfl, rfl, rfl, rfl, rfl, rfl, Or.inl rfl⟩

/-! ## Claim C8 -/

/-- After one write, the only row carrying the written date is the freshly
built entry: every previous row with that date is filtered out before the
append and sorting only permutes. -/
theorem update_health_history_filter (history : List HistoryEntry) (d : String)
    (n : ℕ) (r : SanityReport) :
    (update_health_history history d n r).filter (fun row => row.date = d) =
      [mkHistoryEntry d n r] := by
  unfold update_health_history
  have hperm := (List.perm_insertionSort
    (fun a b : HistoryEntry => dateKey a.date ≤ dateKey b.date)
    ((history.filter (fun row => row.date ≠ d)) ++ [mkHistoryEntry d n r])).filter
    (fun row => decide (row.date = d))
  have hcalc : ((history.filter (fun row => row.date ≠ d)) ++
      [mkHistoryEntry d n r]).filter (fun row => row.date = d) =
      [mkHistoryEntry d n r] := by
    rw [List.filter_append, List.filter_filter]
    have h1 : history.filter
        (fun a => decide (a.date = d) && decide (a.date ≠ d)) = [] := by
      apply List.filter_eq_nil_iff.mpr
      intro a _
      simp
    have h2 : List.filter (fun row => row.date = d) [mkHistoryEntry d n r] =
        [mkHistoryEntry d n r] := by
      simp [mkHistoryEntry]
    rw [h1, h2, List.nil_append]
  rw [hcalc] at hperm
  exact List.perm_singleton.mp hperm

/-- C8: writing two snapshots for the same date leaves exactly one entry for
that date — the second one — and the resulting series is sorted by parsed
date ascending. -/
theorem c8_history_idempotent_sorted (history : List HistoryEntry) (d : String)
    (n₁ n₂ : ℕ) (r₁ r₂ : SanityReport) :
    (update_health_history (update_health_history history d n₁ r₁) d n₂ r₂).filter
        (fun row => row.date = d) = [mkHistoryEntry d n₂ r₂] ∧
    List.Sorted (fun a b => dateKey a.date ≤ dateKey b.date)
      (update_health_history (update_health_history history d n₁ r₁) d n₂ r₂) := by
  constructor
  · exact update_health_history_filter _ d n₂ r₂
  · haveI : IsTotal HistoryEntry (fun a b => dateKey a.date ≤ dateKey b.date) :=
      ⟨fun a b => le_total _ _⟩
    haveI : IsTrans HistoryEntry (fun a b => dateKey a.date ≤ dateKey b.date) :=
      ⟨fun _ _ _ => le_trans⟩
    exact List.sorted_insertionSort _ _

/-- C10 witness: the property at a concrete valid payload. -/
theorem c10_manual_analysis_uncapped_witness :
    handle_manual_analysis exPayload exAnalysisCfg =
      Except.ok (200, { result := analyze_stock exPayloadInput exAnalysisCfg,
                        strategy_parameters := exPayloadStrategy }) ∧
    (analyze_stock exPayloadInput exAnalysisCfg).previous_score = none ∧
    (analyze_stock exPayloadInput exAnalysisCfg).score_before_daily_cap = none ∧
    (analyze_stock exPayloadInput exAnalysisCfg).score =
      calculate_composite_score (calculate_score_breakdown exPayloadInput exAnalysisCfg)
        exAnalysisCfg :=
  c10_manual_analysis_uncapped exPayload exAnalysisCfg exPayloadInput exPayloadStrategy rfl

end LyAssistant
